import Mathlib

/-!
Verification of `src/Database/enhance_new_database_template.py` (Elixer).

The script loads a JSON document (chapters containing articles), derives
`id`, `fullText`, `keywords`, `tags` fields for the nested records, updates
document metadata, and writes the result.  We embed the in-memory transform
shallowly: JSON records become structures whose possibly-absent keys are
`Option` fields (plus an `extra` association list for keys the transform
never touches), a missing-key access (Python `KeyError`) becomes an
`Except PyErr` failure, and the current date string produced by
`datetime.now().strftime` becomes an explicit parameter.
-/

/-- A JSON scalar as it may appear in `chapter_number` / `article_number`
(the spec allows int or string there); `pyStr` is Python's `str()` as used
by the f-strings in the source. -/
inductive JVal where
  | str : String → JVal
  | int : Int → JVal
deriving DecidableEq, Repr

def pyStr : JVal → String
  | JVal.str s => s
  | JVal.int n => toString n

/-- The single error that the transform can raise on in-memory data:
a Python `KeyError` for a required key that is absent. -/
inductive PyErr where
  | keyError : String → PyErr
deriving DecidableEq, Repr

/-- Python's `str.split()` whitespace test (space, tab, newline, CR, VT, FF). -/
def pyIsSpace (c : Char) : Bool :=
  c = ' ' || c = '\t' || c = '\n' || c = '\r' || c = '\x0b' || c = '\x0c'

/-- Splitting a character list at separator characters, keeping pieces. -/
def splitChars (sep : Char → Bool) : List Char → List Char → List (List Char)
  | [], acc => [acc.reverse]
  | c :: cs, acc =>
    if sep c then acc.reverse :: splitChars sep cs []
    else splitChars sep cs (c :: acc)

/-- Python `text.split()`: split on whitespace, discarding empty pieces. -/
def pySplit (s : String) : List String :=
  ((splitChars pyIsSpace s.toList []).map String.mk).filter (fun w => w ≠ "")

/-- Python `word.lower()` (ASCII case mapping, per character). -/
def pyLower (s : String) : String :=
  String.mk (s.toList.map Char.toLower)

/-- Python `sep.join(xs)`. -/
def joinList (sep : String) : List String → String
  | [] => ""
  | [x] => x
  | x :: y :: xs => x ++ sep ++ joinList sep (y :: xs)

/-- `extract_keywords` from the source:
`list(set(word.lower() for word in text.split() if len(word) > 4))`.
The Python `set` has no specified order; we fix a concrete deduplicated
list and state all properties up to membership. -/
def extract_keywords (text : String) : List String :=
  (((pySplit text).filter (fun w => 4 < w.length)).map pyLower).dedup

/-- Articles as loosely-typed records: required-but-unvalidated keys are
`Option` fields, untouched extra keys live in `extra`. -/
structure Article where
  article_number : Option JVal := none
  content : Option String := none
  points : Option (List String) := none
  id : Option String := none
  fullText : Option String := none
  keywords : Option (List String) := none
  tags : Option (List String) := none
  extra : List (String × String) := []
deriving DecidableEq, Repr

structure Chapter where
  chapter_number : Option JVal := none
  chapter_title : Option String := none
  articles : Option (List Article) := none
  id : Option String := none
  extra : List (String × String) := []
deriving DecidableEq, Repr

structure Metadata where
  enhanced : Option Bool := none
  last_updated : Option String := none
  extra : List (String × String) := []
deriving DecidableEq, Repr

structure Document where
  chapters : Option (List Chapter) := none
  metadata : Option Metadata := none
  extra : List (String × String) := []
deriving DecidableEq, Repr

/-- The fresh dict Python builds in `data['metadata'] = {}`. -/
def emptyMetadata : Metadata :=
  { enhanced := none, last_updated := none, extra := [] }

/-- The body of the article loop: reads `article_number`, `content` and the
chapter's `chapter_title` (each a `KeyError` when absent, in source order),
then assigns `id`, `fullText`, `keywords`, `tags`. -/
def enhance_article (chapter_title : Option String) (chapter_id : String)
    (article : Article) : Except PyErr Article :=
  match article.article_number with
  | none => Except.error (PyErr.keyError "article_number")
  | some num =>
    match article.content with
    | none => Except.error (PyErr.keyError "content")
    | some content =>
      match chapter_title with
      | none => Except.error (PyErr.keyError "chapter_title")
      | some title =>
        let article_id := chapter_id ++ "_art_" ++ pyStr num
        let fullText := content ++ " " ++ joinList "; " (article.points.getD [])
        Except.ok { article with
          id := some article_id,
          fullText := some fullText,
          keywords := some (extract_keywords fullText),
          tags := some [title] }

/-- The `for article in chapter.get('articles', [])` loop, in order;
the first `KeyError` aborts the run. -/
def enhance_articles (chapter_title : Option String) (chapter_id : String) :
    List Article → Except PyErr (List Article)
  | [] => Except.ok []
  | a :: rest =>
    match enhance_article chapter_title chapter_id a with
    | Except.error e => Except.error e
    | Except.ok a2 =>
      match enhance_articles chapter_title chapter_id rest with
      | Except.error e => Except.error e
      | Except.ok rest2 => Except.ok (a2 :: rest2)

/-- The body of the chapter loop: reads `chapter_number` (`KeyError` when
absent), assigns `id`, then processes `chapter.get('articles', [])`
(a chapter without an `articles` key keeps none). -/
def enhance_chapter (chapter : Chapter) : Except PyErr Chapter :=
  match chapter.chapter_number with
  | none => Except.error (PyErr.keyError "chapter_number")
  | some num =>
    let chapter_id := "chap_" ++ pyStr num
    match chapter.articles with
    | none => Except.ok { chapter with id := some chapter_id }
    | some arts =>
      match enhance_articles chapter.chapter_title chapter_id arts with
      | Except.error e => Except.error e
      | Except.ok arts2 =>
        Except.ok { chapter with id := some chapter_id, articles := some arts2 }

/-- The `for chapter in data.get('chapters', [])` loop, in order. -/
def enhance_chapters : List Chapter → Except PyErr (List Chapter)
  | [] => Except.ok []
  | c :: rest =>
    match enhance_chapter c with
    | Except.error e => Except.error e
    | Except.ok c2 =>
      match enhance_chapters rest with
      | Except.error e => Except.error e
      | Except.ok rest2 => Except.ok (c2 :: rest2)

/-- The metadata update at the end of `enhance_database`:
`data['metadata'] = {}` when absent, then `enhanced = True` and
`last_updated = today`. -/
def updateMetadata (today : String) (data : Document)
    (chapters : Option (List Chapter)) : Document :=
  { data with
    chapters := chapters,
    metadata := some { (data.metadata.getD emptyMetadata) with
      enhanced := some true,
      last_updated := some today } }

/-- `enhance_database` on the in-memory document (file read/write elided);
`today` stands for `datetime.now().strftime('%Y-%m-%d')`. -/
def enhance_database (today : String) (data : Document) :
    Except PyErr Document :=
  match data.chapters with
  | none => Except.ok (updateMetadata today data none)
  | some cs =>
    match enhance_chapters cs with
    | Except.error e => Except.error e
    | Except.ok cs2 => Except.ok (updateMetadata today data (some cs2))

/-- A decimal digit character; `digitChar n` is the digit of `n % 10`,
as produced by zero-padded decimal formatting. -/
def digitCharOf : Nat → Char
  | 0 => '0' | 1 => '1' | 2 => '2' | 3 => '3' | 4 => '4'
  | 5 => '5' | 6 => '6' | 7 => '7' | 8 => '8' | _ => '9'

def digitChar (n : Nat) : Char := digitCharOf (n % 10)

/-- Modelled from the spec: `datetime.now().strftime('%Y-%m-%d')` — the
current date as a zero-padded `YYYY-MM-DD` string (the library call is
outside the repository; for `y < 10000` this is the zero-padded rendering). -/
def strftimeYmd (y m d : Nat) : String :=
  String.mk [digitChar (y / 1000), digitChar (y / 100), digitChar (y / 10),
    digitChar y, '-', digitChar (m / 10), digitChar m, '-',
    digitChar (d / 10), digitChar d]

/-- The regex `\d{4}-\d{2}-\d{2}`, as a full-string match. -/
def matchesDatePattern (s : String) : Bool :=
  match s.toList with
  | [a, b, c, d, '-', e, f, '-', g, h] =>
    a.isDigit && b.isDigit && c.isDigit && d.isDigit &&
    e.isDigit && f.isDigit && g.isDigit && h.isDigit
  | _ => false

theorem string_append_empty (s : String) : s ++ "" = s := by
  cases s with
  | mk data => show String.mk (data ++ []) = String.mk data; rw [List.append_nil]

theorem enhance_article_ok {t : Option String} {cid : String} {a a2 : Article}
    (h : enhance_article t cid a = Except.ok a2) :
    ∃ num content title, a.article_number = some num ∧ a.content = some content ∧
      t = some title ∧
      a2 = { a with
        id := some (cid ++ "_art_" ++ pyStr num),
        fullText := some (content ++ " " ++ joinList "; " (a.points.getD [])),
        keywords := some (extract_keywords (content ++ " " ++ joinList "; " (a.points.getD []))),
        tags := some [title] } := by
  rcases hn : a.article_number with _ | num
  · simp [enhance_article, hn] at h
  rcases hc : a.content with _ | content
  · simp [enhance_article, hn, hc] at h
  rcases ht : t with _ | title
  · simp [enhance_article, hn, hc, ht] at h
  refine ⟨num, content, title, rfl, rfl, rfl, ?_⟩
  simp [enhance_article, hn, hc, ht] at h
  exact h.symm

theorem enhance_articles_ok_mem {t : Option String} {cid : String}
    {l l2 : List Article} (h : enhance_articles t cid l = Except.ok l2)
    {a2 : Article} (ha : a2 ∈ l2) :
    ∃ a ∈ l, enhance_article t cid a = Except.ok a2 := by
  induction l generalizing l2 with
  | nil =>
    simp [enhance_articles] at h
    subst h; cases ha
  | cons x xs ih =>
    rcases hx : enhance_article t cid x with e | x2
    · simp [enhance_articles, hx] at h
    rcases hxs : enhance_articles t cid xs with e | xs2
    · simp [enhance_articles, hx, hxs] at h
    simp [enhance_articles, hx, hxs] at h
    subst h
    cases ha with
    | head => exact ⟨x, List.mem_cons_self x xs, hx⟩
    | tail _ ha =>
      rcases ih hxs ha with ⟨a, hmem, hok⟩
      exact ⟨a, List.mem_cons_of_mem x hmem, hok⟩

theorem enhance_chapter_ok {c c2 : Chapter}
    (h : enhance_chapter c = Except.ok c2) :
    ∃ num, c.chapter_number = some num ∧
      ((c.articles = none ∧ c2 = { c with id := some ("chap_" ++ pyStr num) }) ∨
       (∃ arts arts2, c.articles = some arts ∧
          enhance_articles c.chapter_title ("chap_" ++ pyStr num) arts = Except.ok arts2 ∧
          c2 = { c with id := some ("chap_" ++ pyStr num), articles := some arts2 })) := by
  rcases hn : c.chapter_number with _ | num
  · simp [enhance_chapter, hn] at h
  refine ⟨num, rfl, ?_⟩
  rcases ha : c.articles with _ | arts
  · left
    simp [enhance_chapter, hn, ha] at h
    exact ⟨rfl, h.symm⟩
  right
  rcases harts : enhance_articles c.chapter_title ("chap_" ++ pyStr num) arts with e | arts2
  · simp [enhance_chapter, hn, ha, harts] at h
  simp [enhance_chapter, hn, ha, harts] at h
  exact ⟨arts, arts2, rfl, harts, h.symm⟩

theorem enhance_chapters_ok_mem {l l2 : List Chapter}
    (h : enhance_chapters l = Except.ok l2) {c2 : Chapter} (hc : c2 ∈ l2) :
    ∃ c ∈ l, enhance_chapter c = Except.ok c2 := by
  induction l generalizing l2 with
  | nil =>
    simp [enhance_chapters] at h
    subst h; cases hc
  | cons x xs ih =>
    rcases hx : enhance_chapter x with e | x2
    · simp [enhance_chapters, hx] at h
    rcases hxs : enhance_chapters xs with e | xs2
    · simp [enhance_chapters, hx, hxs] at h
    simp [enhance_chapters, hx, hxs] at h
    subst h
    cases hc with
    | head => exact ⟨x, List.mem_cons_self x xs, hx⟩
    | tail _ hc =>
      rcases ih hxs hc with ⟨c, hmem, hok⟩
      exact ⟨c, List.mem_cons_of_mem x hmem, hok⟩

theorem enhance_database_ok_chapters {today : String} {d d2 : Document}
    {cs2 : List Chapter} (h : enhance_database today d = Except.ok d2)
    (hcs : d2.chapters = some cs2) :
    ∃ cs, d.chapters = some cs ∧ enhance_chapters cs = Except.ok cs2 := by
  rcases hd : d.chapters with _ | cs
  · simp [enhance_database, hd] at h
    rw [← h] at hcs
    simp [updateMetadata] at hcs
  rcases hcs2 : enhance_chapters cs with e | cs3
  · simp [enhance_database, hd, hcs2] at h
  simp [enhance_database, hd, hcs2] at h
  rw [← h] at hcs
  simp [updateMetadata] at hcs
  subst hcs
  exact ⟨cs, rfl, hcs2⟩
theorem digitChar_isDigit (n : Nat) : (digitChar n).isDigit = true := by
  unfold digitChar
  have h : n % 10 < 10 := Nat.mod_lt _ (by decide)
  generalize n % 10 = k at h
  match k, h with
  | 0, _ => decide
  | 1, _ => decide
  | 2, _ => decide
  | 3, _ => decide
  | 4, _ => decide
  | 5, _ => decide
  | 6, _ => decide
  | 7, _ => decide
  | 8, _ => decide
  | 9, _ => decide

theorem matchesDatePattern_strftimeYmd (y m d : Nat) :
    matchesDatePattern (strftimeYmd y m d) = true := by
  simp [matchesDatePattern, strftimeYmd, digitChar_isDigit]

theorem enhance_article_idem {t : Option String} {cid : String} {a a2 : Article}
    (h : enhance_article t cid a = Except.ok a2) :
    enhance_article t cid a2 = Except.ok a2 := by
  rcases enhance_article_ok h with ⟨num, content, title, hn, hc, ht, ha2⟩
  subst ha2 ht
  simp [enhance_article, hn, hc]

theorem enhance_articles_idem {t : Option String} {cid : String}
    {l l2 : List Article} (h : enhance_articles t cid l = Except.ok l2) :
    enhance_articles t cid l2 = Except.ok l2 := by
  induction l generalizing l2 with
  | nil =>
    simp [enhance_articles] at h
    subst h
    rfl
  | cons x xs ih =>
    rcases hx : enhance_article t cid x with e | x2
    · simp [enhance_articles, hx] at h
    rcases hxs : enhance_articles t cid xs with e | xs2
    · simp [enhance_articles, hx, hxs] at h
    simp [enhance_articles, hx, hxs] at h
    subst h
    simp [enhance_articles, enhance_article_idem hx, ih hxs]

theorem enhance_chapter_idem {c c2 : Chapter}
    (h : enhance_chapter c = Except.ok c2) :
    enhance_chapter c2 = Except.ok c2 := by
  rcases enhance_chapter_ok h with ⟨num, hn, hcase⟩
  rcases hcase with ⟨hnone, hc2⟩ | ⟨arts, arts2, harts, hok, hc2⟩
  · subst hc2
    simp [enhance_chapter, hn, hnone]
  · subst hc2
    simp [enhance_chapter, hn, harts, enhance_articles_idem hok]

theorem enhance_chapters_idem {l l2 : List Chapter}
    (h : enhance_chapters l = Except.ok l2) :
    enhance_chapters l2 = Except.ok l2 := by
  induction l generalizing l2 with
  | nil =>
    simp [enhance_chapters] at h
    subst h
    rfl
  | cons x xs ih =>
    rcases hx : enhance_chapter x with e | x2
    · simp [enhance_chapters, hx] at h
    rcases hxs : enhance_chapters xs with e | xs2
    · simp [enhance_chapters, hx, hxs] at h
    simp [enhance_chapters, hx, hxs] at h
    subst h
    simp [enhance_chapters, enhance_chapter_idem hx, ih hxs]

theorem enhance_articles_ok_fields {t : Option String} {cid : String}
    {l l2 : List Article} (h : enhance_articles t cid l = Except.ok l2)
    {a : Article} (ha : a ∈ l) :
    a.article_number ≠ none ∧ a.content ≠ none := by
  induction l generalizing l2 with
  | nil => cases ha
  | cons x xs ih =>
    rcases hx : enhance_article t cid x with e | x2
    · simp [enhance_articles, hx] at h
    rcases hxs : enhance_articles t cid xs with e | xs2
    · simp [enhance_articles, hx, hxs] at h
    cases ha with
    | head =>
      rcases enhance_article_ok hx with ⟨num, content, _, hn, hc, _, _⟩
      exact ⟨by simp [hn], by simp [hc]⟩
    | tail _ ha => exact ih hxs ha

theorem enhance_chapters_ok_fields {l l2 : List Chapter}
    (h : enhance_chapters l = Except.ok l2) {c : Chapter} (hc : c ∈ l) :
    c.chapter_number ≠ none ∧
      ∀ arts, c.articles = some arts → ∀ a ∈ arts,
        a.article_number ≠ none ∧ a.content ≠ none := by
  induction l generalizing l2 with
  | nil => cases hc
  | cons x xs ih =>
    rcases hx : enhance_chapter x with e | x2
    · simp [enhance_chapters, hx] at h
    rcases hxs : enhance_chapters xs with e | xs2
    · simp [enhance_chapters, hx, hxs] at h
    cases hc with
    | head =>
      rcases enhance_chapter_ok hx with ⟨num, hn, hcase⟩
      refine ⟨by simp [hn], ?_⟩
      intro arts harts a ha
      rcases hcase with ⟨hnone, _⟩ | ⟨arts0, arts2, harts0, hok, _⟩
      · rw [hnone] at harts; cases harts
      · rw [harts0] at harts
        cases harts
        exact enhance_articles_ok_fields hok ha
    | tail _ hc => exact ih hxs hc
/-- Test fixture: an article with pre-existing tags and an extra key. -/
def sampleArticle : Article :=
  { article_number := some (JVal.int 2), content := some "This is a test",
    points := some ["first point", "second"], tags := some ["old"],
    extra := [("note", "keep")] }

def sampleArticleOut : Article :=
  { sampleArticle with
    id := some "chap_3_art_2",
    fullText := some "This is a test first point; second",
    keywords := some ["first", "point;", "second"],
    tags := some ["Intro"] }

def sampleChapter : Chapter :=
  { chapter_number := some (JVal.int 3), chapter_title := some "Intro",
    articles := some [sampleArticle], extra := [("misc", "x")] }

def sampleChapterOut : Chapter :=
  { sampleChapter with id := some "chap_3", articles := some [sampleArticleOut] }

def sampleDoc : Document :=
  { chapters := some [sampleChapter], metadata := none,
    extra := [("source", "test")] }

def sampleMetaOut : Metadata :=
  { enhanced := some true, last_updated := some "2026-10-12", extra := [] }

def sampleDocOut : Document :=
  { sampleDoc with
    chapters := some [sampleChapterOut],
    metadata := some sampleMetaOut }

/-- Claim C1: every chapter of the output document carries
`id = "chap_" ++ chapter_number`. -/
theorem chapter_id_correct (today : String) (d d2 : Document)
    (cs : List Chapter) (c : Chapter)
    (h : enhance_database today d = Except.ok d2)
    (hcs : d2.chapters = some cs) (hc : c ∈ cs) :
    ∃ num, c.chapter_number = some num ∧ c.id = some ("chap_" ++ pyStr num) := by
  rcases enhance_database_ok_chapters h hcs with ⟨cs0, hcs0, hok⟩
  rcases enhance_chapters_ok_mem hok hc with ⟨c0, hmem, hcok⟩
  rcases enhance_chapter_ok hcok with ⟨num, hn, hcase⟩
  rcases hcase with ⟨_, hc2⟩ | ⟨arts, arts2, _, _, hc2⟩ <;> subst hc2 <;>
    exact ⟨num, hn, rfl⟩

/-- Claim C1 witness: the sample chapter with `chapter_number = 3` gets
id `"chap_3"`. -/
theorem chapter_id_correct_witness :
    (∃ num, sampleChapterOut.chapter_number = some num ∧
      sampleChapterOut.id = some ("chap_" ++ pyStr num)) ∧
    sampleChapterOut.id = some "chap_3" :=
  ⟨chapter_id_correct "2026-10-12" sampleDoc sampleDocOut [sampleChapterOut]
      sampleChapterOut rfl (by decide) (by decide),
    by decide⟩

/-- Claim C2: every article of the output document carries
`id = <parent chapter id> ++ "_art_" ++ article_number`. -/
theorem article_id_correct (today : String) (d d2 : Document)
    (cs : List Chapter) (c : Chapter) (arts : List Article) (a : Article)
    (h : enhance_database today d = Except.ok d2)
    (hcs : d2.chapters = some cs) (hc : c ∈ cs)
    (harts : c.articles = some arts) (ha : a ∈ arts) :
    ∃ cid num, c.id = some cid ∧ a.article_number = some num ∧
      a.id = some (cid ++ "_art_" ++ pyStr num) := by
  rcases enhance_database_ok_chapters h hcs with ⟨cs0, hcs0, hok⟩
  rcases enhance_chapters_ok_mem hok hc with ⟨c0, hmem, hcok⟩
  rcases enhance_chapter_ok hcok with ⟨cnum, hn, hcase⟩
  rcases hcase with ⟨hnone, hc2⟩ | ⟨arts0, arts2, harts0, haok, hc2⟩
  · subst hc2
    have h2 : c0.articles = some arts := harts
    rw [hnone] at h2
    cases h2
  · subst hc2
    have h2 : some arts2 = some arts := harts
    cases h2
    rcases enhance_articles_ok_mem haok ha with ⟨a0, hamem, haok2⟩
    rcases enhance_article_ok haok2 with ⟨num, content, title, han, hac, hat, ha2⟩
    subst ha2
    exact ⟨"chap_" ++ pyStr cnum, num, rfl, han, rfl⟩

/-- Claim C2 witness: article 2 of chapter 3 gets id `"chap_3_art_2"`. -/
theorem article_id_correct_witness :
    (∃ cid num, sampleChapterOut.id = some cid ∧
      sampleArticleOut.article_number = some num ∧
      sampleArticleOut.id = some (cid ++ "_art_" ++ pyStr num)) ∧
    sampleArticleOut.id = some "chap_3_art_2" :=
  ⟨article_id_correct "2026-10-12" sampleDoc sampleDocOut [sampleChapterOut]
      sampleChapterOut [sampleArticleOut] sampleArticleOut
      rfl (by decide) (by decide) (by decide) (by decide),
    by decide⟩

/-- Claim C3: every output article's `fullText` is its `content`, one space,
and its `points` joined with a semicolon separator; with empty or absent
`points` it is the `content` followed by the single space alone. -/
theorem fullText_correct (today : String) (d d2 : Document)
    (cs : List Chapter) (c : Chapter) (arts : List Article) (a : Article)
    (h : enhance_database today d = Except.ok d2)
    (hcs : d2.chapters = some cs) (hc : c ∈ cs)
    (harts : c.articles = some arts) (ha : a ∈ arts) :
    ∃ content, a.content = some content ∧
      a.fullText = some (content ++ " " ++ joinList "; " (a.points.getD [])) ∧
      (a.points.getD [] = [] → a.fullText = some (content ++ " ")) := by
  rcases enhance_database_ok_chapters h hcs with ⟨cs0, hcs0, hok⟩
  rcases enhance_chapters_ok_mem hok hc with ⟨c0, hmem, hcok⟩
  rcases enhance_chapter_ok hcok with ⟨cnum, hn, hcase⟩
  rcases hcase with ⟨hnone, hc2⟩ | ⟨arts0, arts2, harts0, haok, hc2⟩
  · subst hc2
    have h2 : c0.articles = some arts := harts
    rw [hnone] at h2
    cases h2
  · subst hc2
    have h2 : some arts2 = some arts := harts
    cases h2
    rcases enhance_articles_ok_mem haok ha with ⟨a0, hamem, haok2⟩
    rcases enhance_article_ok haok2 with ⟨num, content, title, han, hac, hat, ha2⟩
    subst ha2
    refine ⟨content, hac, rfl, ?_⟩
    intro hpts
    have h3 : a0.points.getD [] = [] := hpts
    show some (content ++ " " ++ joinList "; " (a0.points.getD [])) =
      some (content ++ " ")
    rw [h3]
    show some (content ++ " " ++ "") = some (content ++ " ")
    rw [string_append_empty]

/-- Claim C3 witness: `content = "This is a test"` with
`points = ["first point", "second"]` yields
`fullText = "This is a test first point; second"`. -/
theorem fullText_correct_witness :
    (∃ content, sampleArticleOut.content = some content ∧
      sampleArticleOut.fullText =
        some (content ++ " " ++ joinList "; " (sampleArticleOut.points.getD [])) ∧
      (sampleArticleOut.points.getD [] = [] →
        sampleArticleOut.fullText = some (content ++ " "))) ∧
    sampleArticleOut.fullText = some "This is a test first point; second" :=
  ⟨fullText_correct "2026-10-12" sampleDoc sampleDocOut [sampleChapterOut]
      sampleChapterOut [sampleArticleOut] sampleArticleOut
      rfl (by decide) (by decide) (by decide) (by decide),
    by decide⟩
/-- Claim C4: `extract_keywords` returns exactly the lowercased
whitespace-delimited tokens of length strictly greater than 4, without
duplicates and with no punctuation stripping (lowercasing preserves token
length); on `"This is a test first point; second"` the result is the set
containing `"first"`, `"point;"` and `"second"`. -/
theorem extract_keywords_correct :
    (∀ text w, w ∈ extract_keywords text ↔
      ∃ tok, tok ∈ pySplit text ∧ 4 < tok.length ∧ w = pyLower tok) ∧
    (∀ s, (pyLower s).length = s.length) ∧
    (∀ text, (extract_keywords text).Nodup) ∧
    (∀ w, w ∈ extract_keywords "This is a test first point; second" ↔
      w = "first" ∨ w = "point;" ∨ w = "second") := by
  refine ⟨?_, ?_, ?_, ?_⟩
  · intro text w
    simp only [extract_keywords, List.mem_dedup, List.mem_map, List.mem_filter,
      decide_eq_true_eq]
    constructor
    · rintro ⟨tok, ⟨hmem, hlen⟩, rfl⟩
      exact ⟨tok, hmem, hlen, rfl⟩
    · rintro ⟨tok, hmem, hlen, rfl⟩
      exact ⟨tok, ⟨hmem, hlen⟩, rfl⟩
  · intro s
    show (s.toList.map Char.toLower).length = s.toList.length
    rw [List.length_map]
  · intro text
    exact List.nodup_dedup _
  · intro w
    have h : extract_keywords "This is a test first point; second" =
        ["first", "point;", "second"] := by decide
    rw [h]
    simp

/-- Claim C5: whenever the transform succeeds, the output metadata has
`enhanced = true` and `last_updated` equal to the current date string,
which matches the pattern of four digits, dash, two digits, dash,
two digits. -/
theorem metadata_updated (y m d : Nat) (doc out : Document)
    (h : enhance_database (strftimeYmd y m d) doc = Except.ok out) :
    ∃ md, out.metadata = some md ∧ md.enhanced = some true ∧
      md.last_updated = some (strftimeYmd y m d) ∧
      matchesDatePattern (strftimeYmd y m d) = true := by
  rcases hd : doc.chapters with _ | cs
  · simp [enhance_database, hd] at h
    subst h
    exact ⟨_, rfl, rfl, rfl, matchesDatePattern_strftimeYmd y m d⟩
  · rcases hcs : enhance_chapters cs with e | cs2
    · simp [enhance_database, hd, hcs] at h
    · simp [enhance_database, hd, hcs] at h
      subst h
      exact ⟨_, rfl, rfl, rfl, matchesDatePattern_strftimeYmd y m d⟩

def noMetaOut : Metadata :=
  { enhanced := some true, last_updated := some "2026-10-12", extra := [] }

def noMetaDocOut : Document :=
  { chapters := none, metadata := some noMetaOut, extra := [] }

/-- Claim C5 witness: a document with no `metadata` key at all gets
`enhanced = true` and a `YYYY-MM-DD` date. -/
theorem metadata_updated_witness :
    ∃ md, noMetaDocOut.metadata = some md ∧ md.enhanced = some true ∧
      md.last_updated = some (strftimeYmd 2026 10 12) ∧
      matchesDatePattern (strftimeYmd 2026 10 12) = true :=
  metadata_updated 2026 10 12
    { chapters := none, metadata := none, extra := [] } noMetaDocOut (by
      have h : strftimeYmd 2026 10 12 = "2026-10-12" := by decide
      rw [h]
      exact rfl)

/-- Claim C6: on a document without a `chapters` key the transform succeeds
and changes nothing but the metadata fields `enhanced` and `last_updated`. -/
theorem enhance_without_chapters (today : String) (d : Document)
    (h : d.chapters = none) :
    enhance_database today d = Except.ok { d with
      metadata := some { (d.metadata.getD emptyMetadata) with
        enhanced := some true, last_updated := some today } } := by
  cases d with
  | mk chs md ex =>
    subst h
    rfl

def sampleNoChaptersMeta : Metadata :=
  { enhanced := some false, last_updated := none, extra := [("lang", "km")] }

def sampleNoChapters : Document :=
  { chapters := none, metadata := some sampleNoChaptersMeta,
    extra := [("title", "laws")] }

/-- Claim C6 witness: a concrete document without chapters, with
pre-existing metadata and extra keys, is preserved except for the two
metadata fields. -/
theorem enhance_without_chapters_witness :
    enhance_database "2026-10-12" sampleNoChapters =
      Except.ok { sampleNoChapters with
        metadata := some { (sampleNoChapters.metadata.getD emptyMetadata) with
          enhanced := some true, last_updated := some "2026-10-12" } } :=
  enhance_without_chapters "2026-10-12" sampleNoChapters rfl

/-- Claim C7: the transform is idempotent on the derived fields — a second
run on its own output succeeds and reproduces the chapters (hence all ids,
fullText, keywords and tags) exactly, for any later run date. -/
theorem enhance_idempotent (today today2 : String) (d d1 : Document)
    (h : enhance_database today d = Except.ok d1) :
    ∃ d2, enhance_database today2 d1 = Except.ok d2 ∧
      d2.chapters = d1.chapters := by
  rcases hd : d.chapters with _ | cs
  · simp [enhance_database, hd] at h
    subst h
    exact ⟨updateMetadata today2 (updateMetadata today d none) none, rfl, rfl⟩
  · rcases hcs : enhance_chapters cs with e | cs2
    · simp [enhance_database, hd, hcs] at h
    · simp [enhance_database, hd, hcs] at h
      subst h
      have hidem := enhance_chapters_idem hcs
      refine ⟨updateMetadata today2
        (updateMetadata today d (some cs2)) (some cs2), ?_, rfl⟩
      have hch : (updateMetadata today d (some cs2)).chapters = some cs2 := rfl
      simp [enhance_database, hch, hidem]

/-- Claim C7 witness: re-running on the sample output with a different date
reproduces its chapters. -/
theorem enhance_idempotent_witness :
    ∃ d2, enhance_database "2027-01-01" sampleDocOut = Except.ok d2 ∧
      d2.chapters = sampleDocOut.chapters :=
  enhance_idempotent "2026-10-12" "2027-01-01" sampleDoc sampleDocOut rfl
/-- Claim C8: whenever some chapter lacks `chapter_number`, or some article
lacks `article_number` or `content`, the transform fails with an uncaught
missing-key error that is returned to the caller. -/
theorem missing_field_error (today : String) (d : Document)
    (cs : List Chapter) (hcs : d.chapters = some cs)
    (hbad : ∃ c ∈ cs, c.chapter_number = none ∨
      ∃ arts, c.articles = some arts ∧ ∃ a ∈ arts,
        a.article_number = none ∨ a.content = none) :
    ∃ k, enhance_database today d = Except.error (PyErr.keyError k) := by
  rcases hres : enhance_chapters cs with e | cs2
  · cases e with
    | keyError k => exact ⟨k, by simp [enhance_database, hcs, hres]⟩
  · exfalso
    rcases hbad with ⟨c, hc, hbad⟩
    have hf := enhance_chapters_ok_fields hres hc
    rcases hbad with hn | ⟨arts, harts, a, ha, hbad⟩
    · exact hf.1 hn
    · rcases hbad with hb | hb
      · exact ((hf.2 arts harts a ha).1) hb
      · exact ((hf.2 arts harts a ha).2) hb

def badChapter : Chapter :=
  { chapter_number := none, chapter_title := some "T",
    articles := none, id := none, extra := [] }

def badDoc : Document :=
  { chapters := some [badChapter], metadata := none, extra := [] }

/-- Claim C8 witness: a chapter without `chapter_number` makes the whole
run fail with a missing-key error. -/
theorem missing_field_error_witness :
    ∃ k, enhance_database "2026-10-12" badDoc =
      Except.error (PyErr.keyError k) :=
  missing_field_error "2026-10-12" badDoc [badChapter] rfl
    ⟨badChapter, by decide, Or.inl rfl⟩

/-- Claim C9: every output article's `tags` is exactly the one-element list
holding the parent chapter's `chapter_title`, whatever tags the input
article carried. -/
theorem tags_overwritten (today : String) (d d2 : Document)
    (cs : List Chapter) (c : Chapter) (arts : List Article) (a : Article)
    (h : enhance_database today d = Except.ok d2)
    (hcs : d2.chapters = some cs) (hc : c ∈ cs)
    (harts : c.articles = some arts) (ha : a ∈ arts) :
    ∃ title, c.chapter_title = some title ∧ a.tags = some [title] := by
  rcases enhance_database_ok_chapters h hcs with ⟨cs0, hcs0, hok⟩
  rcases enhance_chapters_ok_mem hok hc with ⟨c0, hmem, hcok⟩
  rcases enhance_chapter_ok hcok with ⟨cnum, hn, hcase⟩
  rcases hcase with ⟨hnone, hc2⟩ | ⟨arts0, arts2, harts0, haok, hc2⟩
  · subst hc2
    have h2 : c0.articles = some arts := harts
    rw [hnone] at h2
    cases h2
  · subst hc2
    have h2 : some arts2 = some arts := harts
    cases h2
    rcases enhance_articles_ok_mem haok ha with ⟨a0, hamem, haok2⟩
    rcases enhance_article_ok haok2 with ⟨num, content, title, han, hac, hat, ha2⟩
    subst ha2
    exact ⟨title, hat, rfl⟩

/-- Claim C9 witness: the sample article entered with `tags = ["old"]` and
leaves with exactly `["Intro"]`, its chapter's title — the old value is
discarded, not merged. -/
theorem tags_overwritten_witness :
    (∃ title, sampleChapterOut.chapter_title = some title ∧
      sampleArticleOut.tags = some [title]) ∧
    sampleArticle.tags = some ["old"] ∧
    sampleArticleOut.tags = some ["Intro"] :=
  ⟨tags_overwritten "2026-10-12" sampleDoc sampleDocOut [sampleChapterOut]
      sampleChapterOut [sampleArticleOut] sampleArticleOut
      rfl (by decide) (by decide) (by decide) (by decide),
    by decide, by decide⟩

/-- Claim C10: a chapter without an `articles` key is processed without
error — no articles are touched, the derived id is still assigned, and
`chapter_title` is never read (it may be absent); a document holding just
such a chapter enhances successfully. -/
theorem chapter_without_articles (c : Chapter) (num : JVal)
    (harts : c.articles = none) (hnum : c.chapter_number = some num) :
    enhance_chapter c = Except.ok { c with id := some ("chap_" ++ pyStr num) } ∧
    ∀ today, ∃ out,
      enhance_database today
        { chapters := some [c], metadata := none, extra := [] } =
        Except.ok out ∧
      out.chapters = some [{ c with id := some ("chap_" ++ pyStr num) }] := by
  have h1 : enhance_chapter c =
      Except.ok { c with id := some ("chap_" ++ pyStr num) } := by
    simp [enhance_chapter, hnum, harts]
  refine ⟨h1, ?_⟩
  intro today
  have h2 : enhance_chapters [c] =
      Except.ok [{ c with id := some ("chap_" ++ pyStr num) }] := by
    simp [enhance_chapters, h1]
  refine ⟨updateMetadata today
      { chapters := some [c], metadata := none, extra := [] }
      (some [{ c with id := some ("chap_" ++ pyStr num) }]), ?_, rfl⟩
  simp [enhance_database, h2]

def titlelessChapter : Chapter :=
  { chapter_number := some (JVal.str "IV"), chapter_title := none,
    articles := none, id := none, extra := [] }

/-- Claim C10 witness: a chapter with a string number, no `articles` key and
no `chapter_title` is enhanced without error and gets id `"chap_IV"`. -/
theorem chapter_without_articles_witness :
    (enhance_chapter titlelessChapter =
      Except.ok { titlelessChapter with id := some ("chap_" ++ pyStr (JVal.str "IV")) } ∧
    ∀ today, ∃ out,
      enhance_database today
        { chapters := some [titlelessChapter], metadata := none, extra := [] } =
        Except.ok out ∧
      out.chapters = some
        [{ titlelessChapter with id := some ("chap_" ++ pyStr (JVal.str "IV")) }]) ∧
    ("chap_" ++ pyStr (JVal.str "IV")) = "chap_IV" :=
  ⟨chapter_without_articles titlelessChapter (JVal.str "IV") rfl rfl,
    by decide⟩
